import Mathlib

/-!
Verification of the NeuroWings morphometric index and breed classification
engine (neurowings/core/calculations.py and the score aggregation lines of
neurowings/ui/analysis_widget.py), shallowly embedded over the reals.

Python floats are modelled as real numbers.  A landmark point is
an optional pair: the value none models a Python point that is None or
lacks coordinates (subscripting such a point raises, which the embedding
renders as Except.error).  The breed reference tables (BREEDS and
BREED_RANGES in neurowings/core/constants.py, a file the repository ships
outside src) are passed as an explicit association-list parameter.
-/

namespace NeuroWings

open scoped Classical

/-- A landmark point as the Python code receives it: none models a point
that is None or malformed (missing coordinates). -/
abbrev MPoint := Option (ℝ × ℝ)

/-- Euclidean distance between two points; returns 0.0 for a None or
malformed point (calculations.py, dist, lines 29-38: the None check and the
caught TypeError and IndexError of the hypot call). -/
noncomputable def dist (p1 p2 : MPoint) : ℝ :=
  match p1, p2 with
  | some (x1, y1), some (x2, y2) => Real.sqrt ((x2 - x1) ^ 2 + (y2 - y1) ^ 2)
  | _, _ => 0

/-- Orthogonal projection of p onto the line through a and b
(calculations.py, project_point_to_line, lines 41-63).  Any None or
malformed argument, and a degenerate line with squared length below 1e-12,
yield the sentinel (0, 0). -/
noncomputable def project_point_to_line (p a b : MPoint) : ℝ × ℝ :=
  match p, a, b with
  | some (px, py), some (ax, ay), some (bx, b_y) =>
    let vx := bx - ax
    let vy := b_y - ay
    let vv := vx * vx + vy * vy
    if vv < 1e-12 then (0, 0)
    else
      let t := ((px - ax) * vx + (py - ay) * vy) / vv
      (ax + t * vx, ay + t * vy)
  | _, _, _ => (0, 0)

/-- DsA by the Excel formula (calculations.py, calculate_dsa_excel, lines
66-105).  An input that is not an 8-element list returns (0.0, (0.0, 0.0)).
With 8 points, the code subscripts P3 and P8 directly (lines 84-87); a None
or short P3 or P8 raises an uncaught TypeError or IndexError, modelled as
Except.error. -/
noncomputable def calculate_dsa_excel (points : List MPoint) :
    Except Unit (ℝ × (ℝ × ℝ)) :=
  match points with
  | [p1, p2, p3, _p4, _p5, _p6, _p7, p8] =>
    let proj := project_point_to_line p3 p1 p2
    match p3, p8 with
    | some (p3x, p3y), some (p8x, p8y) =>
      let dx_p3 := proj.1 - p3x
      let dy_p3 := proj.2 - p3y
      let dx_p8 := proj.1 - p8x
      let dy_p8 := proj.2 - p8y
      let K2 := if |dx_p3| < 1e-10 then (if dy_p3 > 0 then 1e10 else -1e10)
                else dy_p3 / dx_p3
      let K3 := if |dx_p8| < 1e-10 then (if dy_p8 > 0 then 1e10 else -1e10)
                else dy_p8 / dx_p8
      let denom := 1 + K3 * K2
      let DsA := if |denom| < 1e-10 then (if K2 - K3 > 0 then 90 else -90)
                 else -(Real.arctan ((K2 - K3) / denom) * 180 / Real.pi)
      .ok (DsA, proj)
    | _, _ => .error ()
  | _ => .ok (0, (0, 0))

/-- The three morphometric indices of one wing (the dictionary
calculate_indices returns). -/
structure IndexResult where
  CI : ℝ
  DsA : ℝ
  HI : ℝ

/-- CI, HI and DsA from 8 ordered landmarks (calculations.py,
calculate_indices, lines 108-129).  A list whose length is not 8 returns
the neutral zero result; the divisions are guarded by the 1e-12 threshold;
the DsA error of a malformed P3 or P8 propagates. -/
noncomputable def calculate_indices (points : List MPoint) :
    Except Unit IndexResult :=
  match points with
  | [_p1, _p2, p3, p4, p5, p6, p7, _p8] =>
    let d56 := dist p5 p6
    let d67 := dist p6 p7
    let ci := if d67 > 1e-12 then d56 / d67 else 0
    let d57 := dist p5 p7
    let d34 := dist p3 p4
    let hi := if d34 > 1e-12 then d57 / d34 else 0
    match calculate_dsa_excel points with
    | .ok (dsa, _) => .ok ⟨ci, dsa, hi⟩
    | .error e => .error e
  | _ => .ok ⟨0, 0, 0⟩

theorem dist_some (x1 y1 x2 y2 : ℝ) :
    dist (some (x1, y1)) (some (x2, y2)) =
      Real.sqrt ((x2 - x1) ^ 2 + (y2 - y1) ^ 2) := rfl

theorem dist_self_eq_zero (p : ℝ × ℝ) : dist (some p) (some p) = 0 := by
  obtain ⟨x, y⟩ := p
  simp [dist_some]

/-- On 8 well-formed points calculate_dsa_excel always succeeds. -/
theorem calculate_dsa_excel_ok (p1 p2 p3 p4 p5 p6 p7 p8 : ℝ × ℝ) :
    ∃ d pr, calculate_dsa_excel [some p1, some p2, some p3, some p4,
      some p5, some p6, some p7, some p8] = .ok (d, pr) := by
  obtain ⟨p3x, p3y⟩ := p3
  obtain ⟨p8x, p8y⟩ := p8
  exact ⟨_, _, rfl⟩

/-- The failing input of the malformed-point claim: an 8-point list whose
third point (P3) is None. -/
noncomputable def c6_failing_points : List MPoint :=
  [some (0, 0), some (1, 0), none, some (0, 1),
   some (0, 2), some (0, 3), some (0, 4), some (0, 5)]

/-- C6: refuted on the code.  For the 8-point input whose P3 is None,
calculate_dsa_excel subscripts P3 (proj[0] - p3[0], line 84) without any
guard, so calculate_indices propagates an uncaught TypeError to the caller
instead of degrading the affected distances to 0.0. -/
theorem c6_malformed_point_raises :
    calculate_indices c6_failing_points = .error () := rfl

/-- C7: any input whose length is not exactly 8 yields the neutral zero
result from calculate_indices and (0.0, (0.0, 0.0)) from
calculate_dsa_excel, without raising an exception. -/
theorem c7_wrong_length_neutral (points : List MPoint)
    (h : points.length ≠ 8) :
    calculate_indices points = .ok ⟨0, 0, 0⟩ ∧
      calculate_dsa_excel points = .ok (0, (0, 0)) := by
  rcases points with _ | ⟨q1, _ | ⟨q2, _ | ⟨q3, _ | ⟨q4, _ | ⟨q5, _ |
    ⟨q6, _ | ⟨q7, _ | ⟨q8, _ | ⟨q9, rest⟩⟩⟩⟩⟩⟩⟩⟩⟩ <;>
    first
      | exact ⟨rfl, rfl⟩
      | simp at h

/-- Witness for C7 at the concrete empty input. -/
theorem c7_wrong_length_neutral_witness :
    calculate_indices [] = .ok ⟨0, 0, 0⟩ ∧
      calculate_dsa_excel [] = .ok (0, (0, 0)) :=
  c7_wrong_length_neutral [] (by simp)

/-- C8: for every 8-point landmark set, if P6 = P7 the 1e-12 guard on
dist(P6,P7) makes CI = 0.0, and if P3 = P4 the guard on dist(P3,P4) makes
HI = 0.0 (the division branch is not taken). -/
theorem c8_degenerate_guards (p1 p2 p3 p4 p5 p6 p7 p8 : ℝ × ℝ) :
    (p6 = p7 → (calculate_indices [some p1, some p2, some p3, some p4,
        some p5, some p6, some p7, some p8]).map IndexResult.CI = .ok 0) ∧
    (p3 = p4 → (calculate_indices [some p1, some p2, some p3, some p4,
        some p5, some p6, some p7, some p8]).map IndexResult.HI = .ok 0) := by
  obtain ⟨d, pr, hd⟩ := calculate_dsa_excel_ok p1 p2 p3 p4 p5 p6 p7 p8
  constructor
  · intro h
    subst h
    simp only [calculate_indices, hd, dist_self_eq_zero, Except.map]
    norm_num
  · intro h
    subst h
    simp only [calculate_indices, hd, dist_self_eq_zero, Except.map]
    norm_num

/-- Cubic lower Taylor bound for arctan on the nonnegative reals. -/
theorem poly_le_arctan {x : ℝ} (hx : 0 ≤ x) :
    x - x ^ 3 / 3 ≤ Real.arctan x := by
  have hder : ∀ y : ℝ, HasDerivAt (fun y : ℝ => Real.arctan y - y + y ^ 3 / 3)
      (1 / (1 + y ^ 2) - 1 + y ^ 2) y := by
    intro y
    have h1 := Real.hasDerivAt_arctan y
    have h2 : HasDerivAt (fun y : ℝ => y) 1 y := hasDerivAt_id y
    have h3 : HasDerivAt (fun y : ℝ => y ^ 3 / 3) (y ^ 2) y := by
      have h := (hasDerivAt_pow 3 y).div_const 3
      convert h using 1
      ring
    exact (h1.sub h2).add h3
  have hmono : MonotoneOn (fun y : ℝ => Real.arctan y - y + y ^ 3 / 3)
      (Set.Ici 0) := by
    apply monotoneOn_of_deriv_nonneg (convex_Ici 0)
    · exact fun y _ => ((hder y).continuousAt).continuousWithinAt
    · exact fun y _ => ((hder y).differentiableAt).differentiableWithinAt
    · intro y _
      rw [(hder y).deriv]
      have hpos : (0 : ℝ) < 1 + y ^ 2 := by positivity
      have hval : 1 / (1 + y ^ 2) - 1 + y ^ 2 = y ^ 4 / (1 + y ^ 2) := by
        field_simp
        ring
      rw [hval]
      positivity
  have h0 : (fun y : ℝ => Real.arctan y - y + y ^ 3 / 3) 0 ≤
      (fun y : ℝ => Real.arctan y - y + y ^ 3 / 3) x :=
    hmono (Set.left_mem_Ici) hx hx
  simp only [Real.arctan_zero] at h0
  norm_num at h0
  linarith

/-- Quintic upper Taylor bound for arctan on the nonnegative reals. -/
theorem arctan_le_poly {x : ℝ} (hx : 0 ≤ x) :
    Real.arctan x ≤ x - x ^ 3 / 3 + x ^ 5 / 5 := by
  have hder : ∀ y : ℝ, HasDerivAt
      (fun y : ℝ => y - y ^ 3 / 3 + y ^ 5 / 5 - Real.arctan y)
      (1 - y ^ 2 + y ^ 4 - 1 / (1 + y ^ 2)) y := by
    intro y
    have h1 : HasDerivAt (fun y : ℝ => y) 1 y := hasDerivAt_id y
    have h3 : HasDerivAt (fun y : ℝ => y ^ 3 / 3) (y ^ 2) y := by
      have h := (hasDerivAt_pow 3 y).div_const 3
      convert h using 1
      ring
    have h5 : HasDerivAt (fun y : ℝ => y ^ 5 / 5) (y ^ 4) y := by
      have h := (hasDerivAt_pow 5 y).div_const 5
      convert h using 1
      ring
    have ha := Real.hasDerivAt_arctan y
    exact ((h1.sub h3).add h5).sub ha
  have hmono : MonotoneOn
      (fun y : ℝ => y - y ^ 3 / 3 + y ^ 5 / 5 - Real.arctan y) (Set.Ici 0) := by
    apply monotoneOn_of_deriv_nonneg (convex_Ici 0)
    · exact fun y _ => ((hder y).continuousAt).continuousWithinAt
    · exact fun y _ => ((hder y).differentiableAt).differentiableWithinAt
    · intro y _
      rw [(hder y).deriv]
      have hpos : (0 : ℝ) < 1 + y ^ 2 := by positivity
      have hval : 1 - y ^ 2 + y ^ 4 - 1 / (1 + y ^ 2) = y ^ 6 / (1 + y ^ 2) := by
        field_simp
        ring
      rw [hval]
      positivity
  have h0 : (fun y : ℝ => y - y ^ 3 / 3 + y ^ 5 / 5 - Real.arctan y) 0 ≤
      (fun y : ℝ => y - y ^ 3 / 3 + y ^ 5 / 5 - Real.arctan y) x :=
    hmono (Set.left_mem_Ici) hx hx
  simp only [Real.arctan_zero] at h0
  norm_num at h0
  linarith

/-- The reference landmark list of the spec (58 WD.tps, first 8 points). -/
noncomputable def c1_points : List MPoint :=
  [some (1161, 2838), some (1810, 2789), some (1430, 2787), some (1244, 2791),
   some (1422, 2668), some (1506, 2623), some (1556, 2628), some (1404, 2497)]

theorem c1_proj_eval :
    project_point_to_line (some (1430, 2787)) (some (1161, 2838))
      (some (1810, 2789)) = (303363421 / 211801, 596752778 / 211801) := by
  simp only [project_point_to_line]
  rw [if_neg (by norm_num)]
  norm_num

theorem c1_dsa_eval :
    calculate_dsa_excel c1_points =
      .ok (-(Real.arctan (1332 / 104701) * 180 / Real.pi),
        (303363421 / 211801, 596752778 / 211801)) := by
  simp only [calculate_dsa_excel, c1_points, c1_proj_eval]
  norm_num [abs_lt]

theorem c1_indices_eval :
    calculate_indices c1_points =
      .ok ⟨Real.sqrt 9081 / Real.sqrt 2525,
        -(Real.arctan (1332 / 104701) * 180 / Real.pi),
        Real.sqrt 19556 / Real.sqrt 34612⟩ := by
  have h56 : dist (some ((1422 : ℝ), (2668 : ℝ))) (some (1506, 2623)) =
      Real.sqrt 9081 := by
    rw [dist_some]
    norm_num
  have h67 : dist (some ((1506 : ℝ), (2623 : ℝ))) (some (1556, 2628)) =
      Real.sqrt 2525 := by
    rw [dist_some]
    norm_num
  have h57 : dist (some ((1422 : ℝ), (2668 : ℝ))) (some (1556, 2628)) =
      Real.sqrt 19556 := by
    rw [dist_some]
    norm_num
  have h34 : dist (some ((1430 : ℝ), (2787 : ℝ))) (some (1244, 2791)) =
      Real.sqrt 34612 := by
    rw [dist_some]
    norm_num
  have hgt67 : Real.sqrt 2525 > 1e-12 := by
    have := (Real.lt_sqrt (by norm_num : (0 : ℝ) ≤ 1e-12)).mpr
      (by norm_num : ((1e-12 : ℝ)) ^ 2 < 2525)
    linarith
  have hgt34 : Real.sqrt 34612 > 1e-12 := by
    have := (Real.lt_sqrt (by norm_num : (0 : ℝ) ≤ 1e-12)).mpr
      (by norm_num : ((1e-12 : ℝ)) ^ 2 < 34612)
    linarith
  have hdsa := c1_dsa_eval
  simp only [c1_points] at hdsa
  simp only [calculate_indices, c1_points, hdsa, h56, h67, h57, h34,
    if_pos hgt67, if_pos hgt34]

/-- C1: on the reference landmark list P1..P8, calculate_indices yields
CI, HI and DsA within 1e-6 of the spreadsheet-validated reference values. -/
theorem c1_reference_landmarks :
    ∃ r, calculate_indices c1_points = .ok r ∧
      |r.CI - 1.896427073094| < 1e-6 ∧
      |r.HI - 0.751669046973| < 1e-6 ∧
      |r.DsA - (-0.728874236276)| < 1e-6 := by
  refine ⟨_, c1_indices_eval, ?_, ?_, ?_⟩
  · show |Real.sqrt 9081 / Real.sqrt 2525 - 1.896427073094| < 1e-6
    rw [← Real.sqrt_div (by norm_num : (0 : ℝ) ≤ 9081), abs_lt]
    constructor
    · have := (Real.lt_sqrt
        (by norm_num : (0 : ℝ) ≤ 1.896427073094 - 1e-6)).mpr
        (by norm_num : ((1.896427073094 - 1e-6 : ℝ)) ^ 2 < 9081 / 2525)
      linarith
    · have := (Real.sqrt_lt'
        (by norm_num : (0 : ℝ) < 1.896427073094 + 1e-6)).mpr
        (by norm_num : (9081 / 2525 : ℝ) < (1.896427073094 + 1e-6) ^ 2)
      linarith
  · show |Real.sqrt 19556 / Real.sqrt 34612 - 0.751669046973| < 1e-6
    rw [← Real.sqrt_div (by norm_num : (0 : ℝ) ≤ 19556), abs_lt]
    constructor
    · have := (Real.lt_sqrt
        (by norm_num : (0 : ℝ) ≤ 0.751669046973 - 1e-6)).mpr
        (by norm_num : ((0.751669046973 - 1e-6 : ℝ)) ^ 2 < 19556 / 34612)
      linarith
    · have := (Real.sqrt_lt'
        (by norm_num : (0 : ℝ) < 0.751669046973 + 1e-6)).mpr
        (by norm_num : (19556 / 34612 : ℝ) < (0.751669046973 + 1e-6) ^ 2)
      linarith
  · show |-(Real.arctan (1332 / 104701) * 180 / Real.pi) -
      (-0.728874236276)| < 1e-6
    have hx : (0 : ℝ) ≤ 1332 / 104701 := by norm_num
    have hL := poly_le_arctan hx
    have hU := arctan_le_poly hx
    set d := Real.arctan (1332 / 104701) with hd
    have hπ1 : (3.141592 : ℝ) < Real.pi := Real.pi_gt_d6
    have hπ2 : Real.pi < 3.141593 := Real.pi_lt_d6
    have hπ0 : (0 : ℝ) < Real.pi := Real.pi_pos
    have hdpos : 0 < d := by
      have : (0 : ℝ) < 1332 / 104701 - (1332 / 104701) ^ 3 / 3 := by norm_num
      linarith
    have hupper : d * 180 / Real.pi < 0.728874236276 + 1e-6 := by
      have s1 : d * 180 / Real.pi ≤
          (1332 / 104701 - (1332 / 104701 : ℝ) ^ 3 / 3 +
            (1332 / 104701) ^ 5 / 5) * 180 / Real.pi := by
        gcongr
      have s2 : (1332 / 104701 - (1332 / 104701 : ℝ) ^ 3 / 3 +
          (1332 / 104701) ^ 5 / 5) * 180 / Real.pi <
          (1332 / 104701 - (1332 / 104701 : ℝ) ^ 3 / 3 +
            (1332 / 104701) ^ 5 / 5) * 180 / 3.141592 := by
        apply div_lt_div_of_pos_left (by norm_num) (by norm_num) hπ1
      have s3 : (1332 / 104701 - (1332 / 104701 : ℝ) ^ 3 / 3 +
          (1332 / 104701) ^ 5 / 5) * 180 / 3.141592 <
          0.728874236276 + 1e-6 := by norm_num
      linarith
    have hlower : 0.728874236276 - 1e-6 < d * 180 / Real.pi := by
      have s1 : (1332 / 104701 - (1332 / 104701 : ℝ) ^ 3 / 3) * 180 /
          Real.pi ≤ d * 180 / Real.pi := by
        gcongr
      have s2 : (1332 / 104701 - (1332 / 104701 : ℝ) ^ 3 / 3) * 180 /
          3.141593 < (1332 / 104701 - (1332 / 104701 : ℝ) ^ 3 / 3) * 180 /
          Real.pi := by
        apply div_lt_div_of_pos_left (by norm_num) hπ0 hπ2
      have s3 : (0.728874236276 - 1e-6 : ℝ) <
          (1332 / 104701 - (1332 / 104701 : ℝ) ^ 3 / 3) * 180 / 3.141593 := by
        norm_num
      linarith
    rw [abs_lt]
    constructor <;> linarith

/-- Closed reference intervals of one breed for the three indices (one row
of the BREEDS and BREED_RANGES tables of neurowings/core/constants.py, a
module outside src; the claims quantify over the table, so it is passed as
a parameter). -/
structure BreedRange where
  CI : ℝ × ℝ
  DsA : ℝ × ℝ
  HI : ℝ × ℝ

/-- The breed reference table: an association list in iteration order. -/
abbrev BreedTable := List (String × BreedRange)

/-- Per-index validity flags (the index_valid dictionary of
identify_breed). -/
structure IndexValid where
  CI : Bool
  DsA : Bool
  HI : Bool

/-- Breed matching (calculations.py, identify_breed, lines 132-155): the
loop over BREEDS in iteration order, rendered as structural recursion that
keeps the appended order of breeds_found and OR-accumulates the
index_valid flags. -/
noncomputable def identify_breed (table : BreedTable) (CI DsA HI : ℝ) :
    List String × IndexValid :=
  match table with
  | [] => ([], ⟨false, false, false⟩)
  | (name, ranges) :: rest =>
    let ci_ok := decide (ranges.CI.1 ≤ CI ∧ CI ≤ ranges.CI.2)
    let dsa_ok := decide (ranges.DsA.1 ≤ DsA ∧ DsA ≤ ranges.DsA.2)
    let hi_ok := decide (ranges.HI.1 ≤ HI ∧ HI ≤ ranges.HI.2)
    let tail := identify_breed rest CI DsA HI
    ((if ci_ok && dsa_ok && hi_ok then [name] else []) ++ tail.1,
     ⟨ci_ok || tail.2.CI, dsa_ok || tail.2.DsA, hi_ok || tail.2.HI⟩)

/-- C4: index_valid is true for an index exactly when some breed interval
of the table contains it, and a name is reported exactly when all three of
its intervals contain the corresponding index values simultaneously. -/
theorem c4_identify_breed_characterization (table : BreedTable)
    (CI DsA HI : ℝ) :
    ((identify_breed table CI DsA HI).2.CI = true ↔
      ∃ e ∈ table, e.2.CI.1 ≤ CI ∧ CI ≤ e.2.CI.2) ∧
    ((identify_breed table CI DsA HI).2.DsA = true ↔
      ∃ e ∈ table, e.2.DsA.1 ≤ DsA ∧ DsA ≤ e.2.DsA.2) ∧
    ((identify_breed table CI DsA HI).2.HI = true ↔
      ∃ e ∈ table, e.2.HI.1 ≤ HI ∧ HI ≤ e.2.HI.2) ∧
    (∀ name, name ∈ (identify_breed table CI DsA HI).1 ↔
      ∃ r, (name, r) ∈ table ∧
        (r.CI.1 ≤ CI ∧ CI ≤ r.CI.2) ∧ (r.DsA.1 ≤ DsA ∧ DsA ≤ r.DsA.2) ∧
        (r.HI.1 ≤ HI ∧ HI ≤ r.HI.2)) := by
  induction table with
  | nil => simp [identify_breed]
  | cons head rest ih =>
    obtain ⟨name0, ranges0⟩ := head
    obtain ⟨ih1, ih2, ih3, ih4⟩ := ih
    refine ⟨?_, ?_, ?_, ?_⟩
    · simp only [identify_breed, Bool.or_eq_true, decide_eq_true_eq, ih1,
        List.mem_cons]
      constructor
      · rintro (h | ⟨e, he, h⟩)
        · exact ⟨(name0, ranges0), Or.inl rfl, h⟩
        · exact ⟨e, Or.inr he, h⟩
      · rintro ⟨e, he | he, h⟩
        · subst he
          exact Or.inl h
        · exact Or.inr ⟨e, he, h⟩
    · simp only [identify_breed, Bool.or_eq_true, decide_eq_true_eq, ih2,
        List.mem_cons]
      constructor
      · rintro (h | ⟨e, he, h⟩)
        · exact ⟨(name0, ranges0), Or.inl rfl, h⟩
        · exact ⟨e, Or.inr he, h⟩
      · rintro ⟨e, he | he, h⟩
        · subst he
          exact Or.inl h
        · exact Or.inr ⟨e, he, h⟩
    · simp only [identify_breed, Bool.or_eq_true, decide_eq_true_eq, ih3,
        List.mem_cons]
      constructor
      · rintro (h | ⟨e, he, h⟩)
        · exact ⟨(name0, ranges0), Or.inl rfl, h⟩
        · exact ⟨e, Or.inr he, h⟩
      · rintro ⟨e, he | he, h⟩
        · subst he
          exact Or.inl h
        · exact Or.inr ⟨e, he, h⟩
    · intro name
      simp only [identify_breed, List.mem_append, List.mem_cons, ih4]
      constructor
      · rintro (h | ⟨r, hr, h3⟩)
        · by_cases hcond : (ranges0.CI.1 ≤ CI ∧ CI ≤ ranges0.CI.2) ∧
              (ranges0.DsA.1 ≤ DsA ∧ DsA ≤ ranges0.DsA.2) ∧
              (ranges0.HI.1 ≤ HI ∧ HI ≤ ranges0.HI.2)
          · rw [if_pos] at h
            · simp only [List.mem_singleton] at h
              subst h
              exact ⟨ranges0, Or.inl rfl, hcond⟩
            · simp only [Bool.and_eq_true, decide_eq_true_eq]
              exact ⟨⟨hcond.1, hcond.2.1⟩, hcond.2.2⟩
          · rw [if_neg] at h
            · simp at h
            · simp only [Bool.and_eq_true, decide_eq_true_eq]
              tauto
        · exact ⟨r, Or.inr hr, h3⟩
      · rintro ⟨r, hr | hr, h3⟩
        · rw [Prod.mk.injEq] at hr
          obtain ⟨hname, hr⟩ := hr
          subst hname
          subst hr
          left
          rw [if_pos]
          · simp
          · simp only [Bool.and_eq_true, decide_eq_true_eq]
            exact ⟨⟨h3.1, h3.2.1⟩, h3.2.2⟩
        · exact Or.inr ⟨r, hr, h3⟩

/-- Round to the nearest integer with ties to even, the rounding of the
Python built-in round on floats. -/
noncomputable def round_half_even (x : ℝ) : ℤ :=
  if Int.fract x = 1 / 2 then (if Even ⌊x⌋ then ⌊x⌋ else ⌊x⌋ + 1)
  else round x

/-- Python round(x, 3): round to 3 decimal places. -/
noncomputable def round3 (x : ℝ) : ℝ := (round_half_even (x * 1000) : ℝ) / 1000

/-- The helper _mean_stdev of calculate_breed_probability (calculations.py,
lines 242-252): mean and sample standard deviation (numpy ddof = 1) of the
nonzero values, the standard deviation rounded to 3 decimals as Excel ROUND
does; (0.0, 0.0) when no nonzero value exists and stdev 0.0 when only one
does. -/
noncomputable def mean_stdev (values : List ℝ) : ℝ × ℝ :=
  let vals := values.filter fun v => decide (v ≠ 0)
  if vals = [] then (0, 0)
  else
    let mean := vals.sum / (vals.length : ℝ)
    let stdev :=
      if 1 < vals.length then
        round3 (Real.sqrt (((vals.map fun v => (v - mean) ^ 2).sum) /
          ((vals.length : ℝ) - 1)))
      else 0
    (mean, stdev)

/-- The 95 percent confidence interval helper _interval (calculations.py,
lines 254-258). -/
noncomputable def interval (mean stdev : ℝ) : ℝ × ℝ :=
  (mean - stdev * 1.96, mean + stdev * 1.96)

/-- The 1-D overlap helper _overlap (calculations.py, lines 260-263). -/
noncomputable def overlap (a_lo a_hi b_lo b_hi : ℝ) : ℝ :=
  if a_hi < b_lo ∨ a_lo > b_hi then 0
  else max 0 (min a_hi b_hi - max a_lo b_lo)

/-- calculate_breed_probability (calculations.py, lines 221-283): the
3-D box-intersection ratio of the family confidence intervals against the
breed reference intervals, 0.0 for an unknown breed or a nonpositive
family volume. -/
noncomputable def calculate_breed_probability (table : BreedTable)
    (ci_values dsa_values hi_values : List ℝ) (breed_name : String) : ℝ :=
  match table.lookup breed_name with
  | none => 0
  | some br =>
    let ci_ms := mean_stdev ci_values
    let dsa_ms := mean_stdev dsa_values
    let hi_ms := mean_stdev hi_values
    let ci_iv := interval ci_ms.1 ci_ms.2
    let dsa_iv := interval dsa_ms.1 dsa_ms.2
    let hi_iv := interval hi_ms.1 hi_ms.2
    let fam_vol := (ci_iv.2 - ci_iv.1) * (dsa_iv.2 - dsa_iv.1) *
      (hi_iv.2 - hi_iv.1)
    if fam_vol ≤ 0 then 0
    else
      let ov_ci := overlap ci_iv.1 ci_iv.2 br.CI.1 br.CI.2
      let ov_dsa := overlap dsa_iv.1 dsa_iv.2 br.DsA.1 br.DsA.2
      let ov_hi := overlap hi_iv.1 hi_iv.2 br.HI.1 br.HI.2
      (ov_ci * ov_dsa * ov_hi) / fam_vol

/-- Spec wording (section 4.5): the nonzero values of a list. -/
noncomputable def spec_nonzero (values : List ℝ) : List ℝ :=
  values.filter fun v => decide (v ≠ 0)

/-- Spec wording: the sample standard deviation with ddof = 1 rounded to 3
decimal places, 0 when fewer than 2 valid values exist. -/
noncomputable def spec_stdev (vals : List ℝ) : ℝ :=
  if vals.length < 2 then 0
  else round3 (Real.sqrt ((vals.map fun v =>
    (v - vals.sum / (vals.length : ℝ)) ^ 2).sum / ((vals.length : ℝ) - 1)))

/-- Spec wording: the 95 percent interval mean minus and plus 1.96 times
the standard deviation. -/
noncomputable def spec_interval (vals : List ℝ) : ℝ × ℝ :=
  (vals.sum / (vals.length : ℝ) - 1.96 * spec_stdev vals,
   vals.sum / (vals.length : ℝ) + 1.96 * spec_stdev vals)

/-- Spec wording: the width of the 95 percent interval. -/
noncomputable def spec_width (vals : List ℝ) : ℝ :=
  (spec_interval vals).2 - (spec_interval vals).1

/-- Spec wording: the family volume, product of the three interval
widths over the nonzero values of each list. -/
noncomputable def spec_family_volume (ci dsa hi : List ℝ) : ℝ :=
  spec_width (spec_nonzero ci) * spec_width (spec_nonzero dsa) *
    spec_width (spec_nonzero hi)

/-- Spec wording: the clamped length of the intersection of two closed
intervals (0 if disjoint). -/
noncomputable def spec_overlap (a b : ℝ × ℝ) : ℝ :=
  max 0 (min a.2 b.2 - max a.1 b.1)

theorem mean_stdev_eq (l : List ℝ) :
    mean_stdev l = ((spec_nonzero l).sum / ((spec_nonzero l).length : ℝ),
      spec_stdev (spec_nonzero l)) := by
  by_cases hnil : (l.filter fun v => decide (v ≠ 0)) = []
  · simp only [mean_stdev, spec_stdev, spec_nonzero]
    rw [if_pos hnil, hnil]
    simp
  · simp only [mean_stdev, spec_stdev, spec_nonzero]
    rw [if_neg hnil]
    rcases Nat.lt_or_ge 1 (l.filter fun v => decide (v ≠ 0)).length with
      hc | hc
    · rw [if_pos hc, if_neg (by omega)]
    · rw [if_neg (by omega), if_pos (by omega)]

theorem interval_eq (l : List ℝ) :
    interval (mean_stdev l).1 (mean_stdev l).2 =
      spec_interval (spec_nonzero l) := by
  rw [mean_stdev_eq]
  unfold interval spec_interval
  rw [Prod.ext_iff]
  constructor <;> (simp only []; ring)

theorem overlap_eq (a_lo a_hi b_lo b_hi : ℝ) :
    overlap a_lo a_hi b_lo b_hi = spec_overlap (a_lo, a_hi) (b_lo, b_hi) := by
  unfold overlap spec_overlap
  split
  case isTrue h =>
    simp only []
    rcases h with h | h
    · rw [eq_comm, max_eq_left]
      have h1 : min a_hi b_hi ≤ a_hi := min_le_left _ _
      have h2 : b_lo ≤ max a_lo b_lo := le_max_right _ _
      linarith
    · rw [eq_comm, max_eq_left]
      have h1 : min a_hi b_hi ≤ b_hi := min_le_right _ _
      have h2 : a_lo ≤ max a_lo b_lo := le_max_left _ _
      linarith
  case isFalse h => rfl

theorem spec_width_eq (vals : List ℝ) :
    spec_width vals = 2 * 1.96 * spec_stdev vals := by
  unfold spec_width spec_interval
  ring

theorem fam_vol_eq (ci dsa hi : List ℝ) :
    ((interval (mean_stdev ci).1 (mean_stdev ci).2).2 -
      (interval (mean_stdev ci).1 (mean_stdev ci).2).1) *
      ((interval (mean_stdev dsa).1 (mean_stdev dsa).2).2 -
        (interval (mean_stdev dsa).1 (mean_stdev dsa).2).1) *
      ((interval (mean_stdev hi).1 (mean_stdev hi).2).2 -
        (interval (mean_stdev hi).1 (mean_stdev hi).2).1) =
      spec_family_volume ci dsa hi := by
  rw [interval_eq, interval_eq, interval_eq]
  unfold spec_family_volume spec_width
  rfl

/-- C2: for every breed of the table and all three value lists, the
probability is 0.0 when the family volume is nonpositive and otherwise
exactly the product of the three clamped interval overlaps divided by the
family volume. -/
theorem c2_breed_probability_formula (table : BreedTable)
    (breed_name : String) (br : BreedRange) (ci dsa hi : List ℝ)
    (h : table.lookup breed_name = some br) :
    (spec_family_volume ci dsa hi ≤ 0 →
      calculate_breed_probability table ci dsa hi breed_name = 0) ∧
    (0 < spec_family_volume ci dsa hi →
      calculate_breed_probability table ci dsa hi breed_name =
        spec_overlap (spec_interval (spec_nonzero ci)) br.CI *
        spec_overlap (spec_interval (spec_nonzero dsa)) br.DsA *
        spec_overlap (spec_interval (spec_nonzero hi)) br.HI /
        spec_family_volume ci dsa hi) := by
  have hfam := fam_vol_eq ci dsa hi
  constructor
  · intro hv
    unfold calculate_breed_probability
    rw [h]
    simp only [hfam]
    rw [if_pos hv]
  · intro hv
    unfold calculate_breed_probability
    rw [h]
    simp only [hfam]
    rw [if_neg (by linarith)]
    rw [interval_eq, interval_eq, interval_eq]
    rw [show spec_interval (spec_nonzero ci) =
      ((spec_interval (spec_nonzero ci)).1,
        (spec_interval (spec_nonzero ci)).2) from rfl]
    rw [show spec_interval (spec_nonzero dsa) =
      ((spec_interval (spec_nonzero dsa)).1,
        (spec_interval (spec_nonzero dsa)).2) from rfl]
    rw [show spec_interval (spec_nonzero hi) =
      ((spec_interval (spec_nonzero hi)).1,
        (spec_interval (spec_nonzero hi)).2) from rfl]
    rw [overlap_eq, overlap_eq, overlap_eq]

/-- Modelled from the spec: the Mellifera row of the external breed
reference table (constants.py is outside src; the interval values are the
example values of spec section 6). -/
noncomputable def melliferaRange : BreedRange :=
  ⟨(0.76, 2.16), (-15.31, 0), (0.616, 0.923)⟩

/-- Modelled from the spec: a one-row reference table holding Mellifera. -/
noncomputable def melliferaTable : BreedTable := [("Mellifera", melliferaRange)]

theorem melliferaTable_lookup :
    melliferaTable.lookup "Mellifera" = some melliferaRange := rfl

/-- Witness for C2 at a concrete table and concrete value lists. -/
theorem c2_breed_probability_formula_witness :
    (spec_family_volume [1.5] [-5] [0.7] ≤ 0 →
      calculate_breed_probability melliferaTable [1.5] [-5] [0.7]
        "Mellifera" = 0) ∧
    (0 < spec_family_volume [1.5] [-5] [0.7] →
      calculate_breed_probability melliferaTable [1.5] [-5] [0.7]
        "Mellifera" =
        spec_overlap (spec_interval (spec_nonzero [1.5])) melliferaRange.CI *
        spec_overlap (spec_interval (spec_nonzero [-5])) melliferaRange.DsA *
        spec_overlap (spec_interval (spec_nonzero [0.7])) melliferaRange.HI /
        spec_family_volume [1.5] [-5] [0.7]) :=
  c2_breed_probability_formula melliferaTable "Mellifera" melliferaRange
    [1.5] [-5] [0.7] melliferaTable_lookup

/-- C9: if for any one of the three indices the rounded sample standard
deviation of the nonzero values is 0, the probability is 0.0 regardless of
the table, the breed and where the values lie. -/
theorem c9_zero_stdev_zero_probability (table : BreedTable)
    (ci dsa hi : List ℝ) (breed_name : String)
    (h : spec_stdev (spec_nonzero ci) = 0 ∨
      spec_stdev (spec_nonzero dsa) = 0 ∨
      spec_stdev (spec_nonzero hi) = 0) :
    calculate_breed_probability table ci dsa hi breed_name = 0 := by
  have hv : spec_family_volume ci dsa hi = 0 := by
    unfold spec_family_volume
    rcases h with h | h | h <;>
      rw [spec_width_eq, spec_width_eq, spec_width_eq, h] <;> ring
  cases hlk : table.lookup breed_name with
  | none => simp only [calculate_breed_probability, hlk]
  | some br =>
    simp only [calculate_breed_probability, hlk]
    rw [fam_vol_eq, hv, if_pos le_rfl]

/-- Witness for C9: a single CI value strictly inside the Mellifera CI
interval still yields probability 0. -/
theorem c9_zero_stdev_zero_probability_witness :
    calculate_breed_probability melliferaTable [1.5] [-5, -6] [0.7, 0.8]
      "Mellifera" = 0 :=
  c9_zero_stdev_zero_probability melliferaTable [1.5] [-5, -6] [0.7, 0.8]
    "Mellifera" (Or.inl (by
      have hnz : spec_nonzero [(1.5 : ℝ)] = [1.5] := by
        simp only [spec_nonzero, List.filter_cons, List.filter_nil,
          decide_eq_true_eq]
        norm_num
      rw [hnz]
      unfold spec_stdev
      rw [if_pos (by simp)]))

/-- Excel ROUNDUP as analysis_widget.py implements it (lines 235-241 and
413-419): ceil of nonnegative arguments, floor of negative ones, i.e.
rounding away from zero. -/
noncomputable def excel_roundup (diff : ℝ) : ℤ :=
  if diff ≥ 0 then ⌈diff⌉ else ⌊diff⌋

/-- The breed-probability sub-score of the aggregator (analysis_widget.py:
breed_score = max(0, 5 + roundup_value) with
roundup_value = roundup((id_pct - 100) / 10)). -/
noncomputable def breed_probability_score (id_pct : ℝ) : ℤ :=
  max 0 (5 + excel_roundup ((id_pct - 100) / 10))

/-- C3: the sub-score law max(0, 5 + roundup((pct - 100) / 10)) holds for
every probability percentage, and the roundup operation rounds away from
zero, with the four reference values of the spec. -/
theorem c3_roundup_law :
    (∀ pct : ℝ, breed_probability_score pct =
      max 0 (5 + excel_roundup ((pct - 100) / 10))) ∧
    (∀ x : ℝ, 0 ≤ x → excel_roundup x = ⌈x⌉) ∧
    (∀ x : ℝ, x < 0 → excel_roundup x = -⌈-x⌉) ∧
    excel_roundup (-0.5) = -1 ∧ excel_roundup 0 = 0 ∧
    excel_roundup 2.99 = 3 ∧ excel_roundup (-3.15) = -4 := by
  have hup : ∀ x : ℝ, 0 ≤ x → excel_roundup x = ⌈x⌉ := by
    intro x hx
    unfold excel_roundup
    rw [if_pos (by linarith)]
  have hdown : ∀ x : ℝ, x < 0 → excel_roundup x = ⌊x⌋ := by
    intro x hx
    unfold excel_roundup
    rw [if_neg (by linarith)]
  refine ⟨fun _ => rfl, hup, ?_, ?_, ?_, ?_, ?_⟩
  · intro x hx
    rw [hdown x hx, Int.ceil_neg, neg_neg]
  · rw [hdown (-0.5) (by norm_num)]
    rw [Int.floor_eq_iff]
    norm_num
  · rw [hup 0 le_rfl]
    simp
  · rw [hup 2.99 (by norm_num)]
    rw [Int.ceil_eq_iff]
    norm_num
  · rw [hdown (-3.15) (by norm_num)]
    rw [Int.floor_eq_iff]
    norm_num

/-- The index selector used to index a BREED_RANGES row
(breed_range = BREED_RANGES[breed_name][index_type], with index_type one
of CI, DsA, HI). -/
inductive IndexType where
  | ciT
  | dsaT
  | hiT

/-- The interval of a breed row for one index type. -/
noncomputable def BreedRange.get (br : BreedRange) : IndexType → ℝ × ℝ
  | .ciT => br.CI
  | .dsaT => br.DsA
  | .hiT => br.HI

/-- Python min over a nonempty list; the empty case is dead code guarded
by the caller. -/
noncomputable def listMin : List ℝ → ℝ
  | [] => 0
  | x :: xs => xs.foldl min x

/-- Python max over a nonempty list; the empty case is dead code guarded
by the caller. -/
noncomputable def listMax : List ℝ → ℝ
  | [] => 0
  | x :: xs => xs.foldl max x

/-- The class bounds of histogram bin i (calculate_hybridization_score,
lines 343-348). -/
noncomputable def bin_bounds (min_val bin_width : ℝ) (i : ℕ) : ℝ × ℝ :=
  (min_val + i * bin_width, min_val + (i + 1) * bin_width)

/-- The first histogram class containing a value (the distribution loop,
lines 350-362): half-open classes, the last class closed on both ends. -/
noncomputable def find_bin (min_val bin_width : ℝ) (v : ℝ) : Option ℕ :=
  (List.range 30).find? fun i =>
    if i = 29 then
      decide ((bin_bounds min_val bin_width i).1 ≤ v ∧
        v ≤ (bin_bounds min_val bin_width i).2)
    else
      decide ((bin_bounds min_val bin_width i).1 ≤ v ∧
        v < (bin_bounds min_val bin_width i).2)

/-- The histogram analysis of calculate_hybridization_score from line 329
on (total_wings, the 30 classes, the critical boundary, the two ranks and
the percentage ladder), over the already filtered values and the breed
bounds of the chosen index. -/
noncomputable def hyb_histogram_score (valid_values : List ℝ)
    (breed_min breed_max : ℝ) : ℤ :=
  let total_wings := valid_values.length
  let min_val := listMin valid_values
  let max_val := listMax valid_values
  if |max_val - min_val| < 1e-10 then 3
  else
          let bin_width := (max_val - min_val) / 30
          let bin_count := fun i =>
            (valid_values.filter fun v =>
              decide (find_bin min_val bin_width v = some i)).length
          let mean_val := valid_values.sum / (total_wings : ℝ)
          let lower_side := |mean_val - breed_min| < |mean_val - breed_max|
          let critical_boundary := if lower_side then breed_min else breed_max
          let beyond_boundary :=
            if lower_side then
              valid_values.filter fun v => decide (v < breed_min)
            else
              valid_values.filter fun v => decide (v > breed_max)
          if beyond_boundary = [] then 3
          else
            match (List.range 30).find? (fun i =>
              decide ((bin_bounds min_val bin_width i).1 ≤ critical_boundary ∧
                critical_boundary ≤ (bin_bounds min_val bin_width i).2)) with
            | none =>
              if beyond_boundary ≠ [] then
                let pct_beyond :=
                  100 * (beyond_boundary.length : ℝ) / total_wings
                if pct_beyond > 2 then 0
                else if pct_beyond > 1 then 1
                else 2
              else 3
            | some boundary_bin =>
              let rank2_bins :=
                if critical_boundary = breed_min then
                  (List.range boundary_bin).filter fun i =>
                    decide (boundary_bin - i > 3)
                else
                  (List.range 30).filter fun i =>
                    decide (boundary_bin + 1 ≤ i ∧ i - boundary_bin > 3)
              let rank1_bins :=
                if critical_boundary = breed_min then
                  (List.range boundary_bin).filter fun i =>
                    decide (¬ boundary_bin - i > 3)
                else
                  (List.range 30).filter fun i =>
                    decide (boundary_bin + 1 ≤ i ∧ ¬ i - boundary_bin > 3)
              let rank2_count := (rank2_bins.map bin_count).sum
              let rank1_count := (rank1_bins.map bin_count).sum
              let pct_rank2 :=
                if 0 < total_wings then
                  100 * (rank2_count : ℝ) / total_wings
                else 0
              let pct_rank1 :=
                if 0 < total_wings then
                  100 * (rank1_count : ℝ) / total_wings
                else 0
              if pct_rank2 > 2 ∨ pct_rank1 > 15 then 0
              else if pct_rank2 > 1 ∨ pct_rank1 > 7.5 then 1
              else if pct_rank2 > 0 ∨ pct_rank1 > 0 then 2
              else 3

/-- calculate_hybridization_score (calculations.py, lines 286-442): guard
an empty list and an unknown breed (line 317), select the breed bounds of
the index, filter the nonzero values (lines 324-327) and run the histogram
analysis. -/
noncomputable def calculate_hybridization_score (table : BreedTable)
    (values : List ℝ) (breed_name : String) (index_type : IndexType) : ℤ :=
  if values = [] then 0
  else
    match table.lookup breed_name with
    | none => 0
    | some br =>
      let breed_min := (br.get index_type).1
      let breed_max := (br.get index_type).2
      let valid_values := values.filter fun v => decide (v ≠ 0)
      if valid_values = [] then 0
      else hyb_histogram_score valid_values breed_min breed_max

theorem foldl_min_const (xs : List ℝ) (a c : ℝ) (ha : a = c)
    (h : ∀ v ∈ xs, v = c) : xs.foldl min a = c := by
  induction xs generalizing a with
  | nil => simpa using ha
  | cons x xs ih =>
    have hx : x = c := h x (List.mem_cons_self x xs)
    exact ih (min a x) (by rw [ha, hx, min_self])
      (fun v hv => h v (List.mem_cons_of_mem x hv))

theorem foldl_max_const (xs : List ℝ) (a c : ℝ) (ha : a = c)
    (h : ∀ v ∈ xs, v = c) : xs.foldl max a = c := by
  induction xs generalizing a with
  | nil => simpa using ha
  | cons x xs ih =>
    have hx : x = c := h x (List.mem_cons_self x xs)
    exact ih (max a x) (by rw [ha, hx, max_self])
      (fun v hv => h v (List.mem_cons_of_mem x hv))

theorem listMin_const (l : List ℝ) (c : ℝ) (hne : l ≠ [])
    (h : ∀ v ∈ l, v = c) : listMin l = c := by
  cases l with
  | nil => exact absurd rfl hne
  | cons x xs =>
    exact foldl_min_const xs x c (h x (List.mem_cons_self x xs))
      (fun v hv => h v (List.mem_cons_of_mem x hv))

theorem listMax_const (l : List ℝ) (c : ℝ) (hne : l ≠ [])
    (h : ∀ v ∈ l, v = c) : listMax l = c := by
  cases l with
  | nil => exact absurd rfl hne
  | cons x xs =>
    exact foldl_max_const xs x c (h x (List.mem_cons_self x xs))
      (fun v hv => h v (List.mem_cons_of_mem x hv))

/-- C5 as amended: for every nonempty sample all of whose values are equal
and nonzero, and every breed known to the table, the hybridization score
is 3, regardless of where the breed's boundary lies. -/
theorem c5_identical_values_score_three (table : BreedTable)
    (br : BreedRange) (breed_name : String) (index_type : IndexType)
    (values : List ℝ) (c : ℝ) (hne : values ≠ []) (hc : c ≠ 0)
    (hall : ∀ v ∈ values, v = c)
    (hlk : table.lookup breed_name = some br) :
    calculate_hybridization_score table values breed_name index_type = 3 := by
  have hfilter : values.filter (fun v => decide (v ≠ 0)) = values := by
    rw [List.filter_eq_self]
    intro v hv
    rw [hall v hv]
    simpa using hc
  have hmin : listMin values = c := listMin_const values c hne hall
  have hmax : listMax values = c := listMax_const values c hne hall
  simp only [calculate_hybridization_score, hlk, if_neg hne]
  rw [if_neg (by rw [hfilter]; exact hne), hfilter]
  simp only [hyb_histogram_score, hmin, hmax]
  rw [if_pos (by rw [sub_self, abs_zero]; norm_num)]

/-- Witness for the amended C5 at a concrete identical nonzero sample. -/
theorem c5_identical_values_score_three_witness :
    calculate_hybridization_score melliferaTable [1.5, 1.5] "Mellifera"
      IndexType.ciT = 3 :=
  c5_identical_values_score_three melliferaTable melliferaRange "Mellifera"
    IndexType.ciT [1.5, 1.5] 1.5 (by simp) (by norm_num)
    (by
      intro v hv
      rcases List.mem_cons.mp hv with h | h
      · exact h
      · simpa using h)
    melliferaTable_lookup

/-- Counterexample to C5 as stated: the sample with two identical values
0 has its nonzero filter empty, so the score is 0, not 3. -/
theorem c5_identical_values_counterexample :
    calculate_hybridization_score melliferaTable [0, 0] "Mellifera"
      IndexType.ciT = 0 ∧
    calculate_hybridization_score melliferaTable [0, 0] "Mellifera"
      IndexType.ciT ≠ 3 := by
  have h0 : calculate_hybridization_score melliferaTable [0, 0] "Mellifera"
      IndexType.ciT = 0 := by
    have hflt : ([0, 0] : List ℝ).filter (fun v => decide (v ≠ 0)) = [] := by
      simp
    simp only [calculate_hybridization_score, melliferaTable_lookup]
    rw [if_neg (by simp : ¬ ([0, 0] : List ℝ) = [])]
    rw [if_pos hflt]
  constructor
  · exact h0
  · rw [h0]
    norm_num

theorem hyb_histogram_score_mem (valid_values : List ℝ)
    (breed_min breed_max : ℝ) :
    hyb_histogram_score valid_values breed_min breed_max ∈
      ({0, 1, 2, 3} : Set ℤ) := by
  simp only [hyb_histogram_score]
  repeat' split
  all_goals simp

/-- C10: calculate_hybridization_score always terminates with one of the
integers 0, 1, 2, 3; an empty list, a list with no nonzero value, or a
breed unknown to the table yields 0. -/
theorem c10_hybridization_score_total (table : BreedTable) (values : List ℝ)
    (breed_name : String) (index_type : IndexType) :
    calculate_hybridization_score table values breed_name index_type ∈
      ({0, 1, 2, 3} : Set ℤ) ∧
    (values = [] →
      calculate_hybridization_score table values breed_name index_type = 0) ∧
    (values.filter (fun v => decide (v ≠ 0)) = [] →
      calculate_hybridization_score table values breed_name index_type = 0) ∧
    (table.lookup breed_name = none →
      calculate_hybridization_score table values breed_name index_type
        = 0) := by
  refine ⟨?_, ?_, ?_, ?_⟩
  · by_cases hv : values = []
    · simp [calculate_hybridization_score, hv]
    · cases hlk : table.lookup breed_name with
      | none => simp [calculate_hybridization_score, hlk, hv]
      | some br =>
        simp only [calculate_hybridization_score, hlk, if_neg hv]
        split
        · simp
        · exact hyb_histogram_score_mem _ _ _
  · intro h
    simp only [calculate_hybridization_score]
    rw [if_pos h]
  · intro h
    by_cases hv : values = []
    · simp only [calculate_hybridization_score]
      rw [if_pos hv]
    · cases hlk : table.lookup breed_name with
      | none => simp only [calculate_hybridization_score, hlk, if_neg hv]
      | some br =>
        simp only [calculate_hybridization_score, hlk, if_neg hv]
        rw [if_pos h]
  · intro h
    by_cases hv : values = []
    · simp only [calculate_hybridization_score]
      rw [if_pos hv]
    · simp only [calculate_hybridization_score, h, if_neg hv]

end NeuroWings
